import Mathlib

/-!
# Verification of the beets-check plugin (`beetsplug/check.py`)

A shallow embedding of the checksum / integrity-checking plugin:

* the digest engine (`compute_checksum`, `verify_checksum`, `set_checksum`)
  over a full executable SHA-256 (bytes are `Nat`s below 256, 32-bit words are
  `Nat`s reduced mod `2^32`);
* the integrity-checker registry (`MP3Val`, `FlacTest`, `OggzValidate`) with
  their output parsers, availability filtering and fixer selection;
* the orchestrator workflows `check`, `fix` and `export`, with the external
  world (filesystem, tool availability, subprocess outputs, user answers)
  passed in explicitly.

External effects (file reads, subprocess invocations, mp3val's in-place
repair) are modelled by a `World` record; catalog mutation (`item.store()`)
by returning updated items and file systems.
-/

namespace BeetsCheck

/-! ## SHA-256 (`hashlib.sha256`)

Bytes are `Nat`s (< 256); 32-bit words are `Nat`s kept below `2^32` by
explicit reduction. The message schedule, compression function, padding and
hex encoding follow FIPS 180-4, which is what `hashlib.sha256` computes. -/

/-- Reduce to a 32-bit word. -/
def w32 (n : Nat) : Nat := n % 4294967296

/-- Rotate a 32-bit word right by `n` bits. -/
def rotr (n x : Nat) : Nat := w32 ((x >>> n) ||| (x <<< (32 - n)))

/-- Bitwise complement of a 32-bit word. -/
def compl32 (x : Nat) : Nat := x ^^^ 4294967295

/-- SHA-256 round constants (FIPS 180-4 section 4.2.2, in decimal). -/
def sha256K : List Nat :=
  [1116352408, 1899447441, 3049323471, 3921009573, 961987163,
   1508970993, 2453635748, 2870763221, 3624381080, 310598401,
   607225278, 1426881987, 1925078388, 2162078206, 2614888103,
   3248222580, 3835390401, 4022224774, 264347078, 604807628,
   770255983, 1249150122, 1555081692, 1996064986, 2554220882,
   2821834349, 2952996808, 3210313671, 3336571891, 3584528711,
   113926993, 338241895, 666307205, 773529912, 1294757372,
   1396182291, 1695183700, 1986661051, 2177026350, 2456956037,
   2730485921, 2820302411, 3259730800, 3345764771, 3516065817,
   3600352804, 4094571909, 275423344, 430227734, 506948616,
   659060556, 883997877, 958139571, 1322822218, 1537002063,
   1747873779, 1955562222, 2024104815, 2227730452, 2361852424,
   2428436474, 2756734187, 3204031479, 3329325298]

/-- SHA-256 initial hash value (FIPS 180-4 section 5.3.3, in decimal). -/
def sha256H0 : List Nat :=
  [1779033703, 3144134277, 1013904242, 2773480762,
   1359893119, 2600822924, 528734635, 1541459225]

/-- The function σ₀ of the message schedule. -/
def ssig0 (x : Nat) : Nat := rotr 7 x ^^^ rotr 18 x ^^^ (x >>> 3)

/-- The function σ₁ of the message schedule. -/
def ssig1 (x : Nat) : Nat := rotr 17 x ^^^ rotr 19 x ^^^ (x >>> 10)

/-- The function Σ₀ of the compression function. -/
def bsig0 (x : Nat) : Nat := rotr 2 x ^^^ rotr 13 x ^^^ rotr 22 x

/-- The function Σ₁ of the compression function. -/
def bsig1 (x : Nat) : Nat := rotr 6 x ^^^ rotr 11 x ^^^ rotr 25 x

/-- The `Ch` function. -/
def chFn (x y z : Nat) : Nat := (x &&& y) ^^^ (compl32 x &&& z)

/-- The `Maj` function. -/
def majFn (x y z : Nat) : Nat := (x &&& y) ^^^ (x &&& z) ^^^ (y &&& z)

/-- Group a byte list into big-endian 32-bit words (4 bytes per word). -/
def bytesToWords : List Nat → List Nat
  | b0 :: b1 :: b2 :: b3 :: rest =>
      (b0 <<< 24 ||| b1 <<< 16 ||| b2 <<< 8 ||| b3) :: bytesToWords rest
  | _ => []

/-- Extend the 16 block words to the 64-entry message schedule.
`w` grows in reverse order (most recent word first). -/
def extendSchedule (fuel : Nat) (wrev : List Nat) : List Nat :=
  match fuel with
  | 0 => wrev.reverse
  | fuel + 1 =>
      let wm2 := wrev.getD 1 0
      let wm7 := wrev.getD 6 0
      let wm15 := wrev.getD 14 0
      let wm16 := wrev.getD 15 0
      extendSchedule fuel (w32 (ssig1 wm2 + wm7 + ssig0 wm15 + wm16) :: wrev)

/-- One round of the SHA-256 compression function. -/
def sha256Round (st : List Nat) (kw : Nat × Nat) : List Nat :=
  match st with
  | [a, b, c, d, e, f, g, h] =>
      let t1 := w32 (h + bsig1 e + chFn e f g + kw.1 + kw.2)
      let t2 := w32 (bsig0 a + majFn a b c)
      [w32 (t1 + t2), a, b, c, w32 (d + t1), e, f, g]
  | st => st

/-- Process one 64-byte block: run 64 rounds and add the result into the
running hash. -/
def sha256Block (h : List Nat) (block : List Nat) : List Nat :=
  let w := extendSchedule 48 (bytesToWords block).reverse
  let st := (sha256K.zip w).foldl sha256Round h
  (h.zip st).map fun p => w32 (p.1 + p.2)

/-- Split a byte list into 64-byte blocks (structural recursion on a length
fuel, so that the kernel can evaluate digests). -/
def toBlocksFuel : Nat → List Nat → List (List Nat)
  | 0, _ => []
  | _, [] => []
  | fuel + 1, a :: rest =>
      (a :: rest).take 64 :: toBlocksFuel fuel ((a :: rest).drop 64)

/-- Split a byte list into 64-byte blocks. -/
def toBlocks (l : List Nat) : List (List Nat) := toBlocksFuel l.length l

/-- A `Nat` as `len` big-endian bytes. -/
def natToBytesBE (len n : Nat) : List Nat :=
  match len with
  | 0 => []
  | len + 1 => (n >>> (8 * len)) % 256 :: natToBytesBE len n

/-- SHA-256 padding: append `0x80`, zeros up to 56 mod 64, and the bit length
as 8 big-endian bytes. -/
def sha256Pad (msg : List Nat) : List Nat :=
  let n := msg.length
  let zeros := (120 - (n + 1) % 64) % 64
  msg ++ [0x80] ++ List.replicate zeros 0 ++ natToBytesBE 8 (8 * n)

/-- SHA-256 of a byte list, as the 8 final 32-bit hash words. -/
def sha256Words (msg : List Nat) : List Nat :=
  (toBlocks (sha256Pad msg)).foldl sha256Block sha256H0

/-- A nibble as a lowercase hex character. -/
def hexChar (n : Nat) : Char :=
  if n < 10 then Char.ofNat (48 + n) else Char.ofNat (87 + n)

/-- A 32-bit word as 8 lowercase hex characters. -/
def wordToHex (x : Nat) : List Char :=
  [hexChar (x >>> 28 % 16), hexChar (x >>> 24 % 16),
   hexChar (x >>> 20 % 16), hexChar (x >>> 16 % 16),
   hexChar (x >>> 12 % 16), hexChar (x >>> 8 % 16),
   hexChar (x >>> 4 % 16), hexChar (x % 16)]

/-- Model of `hashlib.sha256(bytes).hexdigest()`: the 64-character lowercase hex
digest of a byte list. -/
def sha256Hex (msg : List Nat) : String :=
  ⟨(sha256Words msg).flatMap wordToHex⟩

/-! ## Data model

A catalog item exposes the fields the plugin reads: `path`, `format` and the
optional `checksum` flexible attribute.  A file system maps paths to byte
contents (`none`: the file does not exist, so opening it raises `IOError`).
The exceptions the plugin raises or catches become an error type. -/

/-- The fields of a beets `Item` the plugin uses.  `checksum = none` models a
missing `checksum` flexible attribute (`item.get('checksum', None)` returns
`None`). -/
structure Item where
  path : String
  format : String
  checksum : Option String
  deriving DecidableEq, Repr

/-- A file system: byte contents by path, `none` when the file is absent. -/
def FS : Type := String → Option (List Nat)

/-- The exceptions of `check.py`: `ChecksumError`, `IntegrityError`, `IOError`
(also raised by `os.remove` on a missing file), Python's `KeyError` (from
`item['checksum']` on a missing key) and `IndexError` (from an out-of-bounds
list subscript), and the beets `UserError`. -/
inductive Err where
  | checksum (path msg : String)
  | integrity (path reason : String)
  | io (msg : String)
  | keyError
  | indexError
  | userError (msg : String)
  deriving DecidableEq, Repr

/-! ## Digest engine (`compute_checksum`, `verify_checksum`, `set_checksum`) -/

/-- Model of `compute_checksum(item)`: read the full byte content of `item.path` and
return its SHA-256 hex digest; a missing file raises `IOError`. -/
def compute_checksum (fs : FS) (item : Item) : Except Err String :=
  match fs item.path with
  | none => .error (.io ("No such file or directory: " ++ item.path))
  | some bytes => .ok (sha256Hex bytes)

/-- Model of `verify_checksum(item)`: raise `ChecksumError` when the stored checksum
differs from the recomputed one.  `item['checksum']` is read first (`KeyError`
when absent), then `compute_checksum` runs. -/
def verify_checksum (fs : FS) (item : Item) : Except Err Unit :=
  match item.checksum with
  | none => .error .keyError
  | some stored => do
      let computed ← compute_checksum fs item
      if stored ≠ computed then
        .error (.checksum item.path "checksum did not match value in library.")
      else
        pure ()

/-- Model of `set_checksum(item)`: recompute the checksum from the file's current bytes,
write it into the item and persist it (`item.store()`), modelled by returning
the updated item. -/
def set_checksum (fs : FS) (item : Item) : Except Err Item :=
  (compute_checksum fs item).map fun c => { item with checksum := some c }

/-! ## Integrity checker registry

`IntegrityChecker` has the three concrete subclasses `MP3Val`, `FlacTest` and
`OggzValidate`, enumerated in definition order by `__subclasses__()`.  The
external world supplies tool availability and the captured output of each
validator invocation. -/

/-- Captured result of one subprocess invocation (`communicate()` plus
`returncode`). -/
structure SubpRes where
  stdout : String
  stderr : String
  returncode : Int
  deriving DecidableEq, Repr

/-- The environment of a run: file contents, which external programs are
installed, each validator's captured output on each path, and the effect of
`mp3val -f` (the repaired bytes it leaves at `path` and the backup it leaves
at `path ++ ".bak"`; `none` when it leaves no file there). -/
structure World where
  fs : FS
  avail : String → Bool
  run : String → String → SubpRes
  fixedBytes : String → Option (List Nat)
  bakBytes : String → Option (List Nat)

/-- The three `IntegrityChecker` subclasses. -/
inductive Checker where
  | mp3val
  | flacTest
  | oggzValidate
  deriving DecidableEq, Repr

/-- The `program` class attribute. -/
def Checker.program : Checker → String
  | .mp3val => "mp3val"
  | .flacTest => "flac"
  | .oggzValidate => "oggz-validate"

/-- The `arguments` class attribute. -/
def Checker.arguments : Checker → List String
  | .mp3val => []
  | .flacTest => ["--test", "--silent"]
  | .oggzValidate => []

/-- The `formats` class attribute. -/
def Checker.formats : Checker → List String
  | .mp3val => ["MP3"]
  | .flacTest => ["FLAC"]
  | .oggzValidate => ["OGG"]

/-- Model of `IntegrityChecker.all()`: the subclasses in definition order. -/
def Checker.all : List Checker := [.mp3val, .flacTest, .oggzValidate]

/-- Model of `IntegrityChecker.allAvailable()`: the checkers whose external program is
installed. -/
def allAvailable (avail : String → Bool) : List Checker :=
  Checker.all.filter fun c => avail c.program

/-- Model of `can_fix`: only `MP3Val` overrides the base class's `False`, with
`item.format in self.formats`. -/
def Checker.can_fix (c : Checker) (item : Item) : Bool :=
  match c with
  | .mp3val => item.format ∈ c.formats
  | _ => false

/-- Model of `IntegrityChecker.fixer(item)`: the first available checker that can fix
the item, if any. -/
def fixer (avail : String → Bool) (item : Item) : Option Checker :=
  (allAvailable avail).find? fun c => c.can_fix item

/-! ## Output parsers

The per-format `parse(stdout, stderr, returncode, path)` methods.  The two
regexes are rendered as character-level matchers.  Both regexes start with a
greedy `.*`, so the reason group is captured at the last position where the
rest of the pattern completes; `lastPos` below scans suffixes right-to-left
accordingly. -/

/-- Python's `s.split('\n')` on characters: splitting at every newline keeps
empty pieces, and the empty text yields one empty piece. -/
def splitNlCh : List Char → List (List Char)
  | [] => [[]]
  | c :: rest =>
      if c = '\n' then [] :: splitNlCh rest
      else
        match splitNlCh rest with
        | [] => [[c]]
        | h :: t => (c :: h) :: t

/-- Python's `s.split('\n')`. -/
def pySplitNl (s : String) : List String :=
  (splitNlCh s.toList).map fun l => ⟨l⟩

/-- A `[0-9a-f]` character. -/
def isLowerHexDigit (c : Char) : Bool :=
  (48 ≤ c.toNat && c.toNat ≤ 57) || (97 ≤ c.toNat && c.toNat ≤ 102)

/-- Apply a matcher at the last position of `cs` where it succeeds (the
greedy-`.*` backtracking order of `re.match`). -/
def lastPos (m : List Char → Option (List Char)) : List Char → Option (List Char)
  | [] => none
  | c :: rest =>
      match lastPos m rest with
      | some r => some r
      | none => m (c :: rest)

/-- Match ` \(offset 0x[0-9a-f]+\): (.*)$` at the start of `cs`, returning the
group. -/
def offsetReasonAt (cs : List Char) : Option (List Char) :=
  if " (offset 0x".toList.isPrefixOf cs then
    let rest := cs.drop 11
    let hex := rest.takeWhile isLowerHexDigit
    let after := rest.dropWhile isLowerHexDigit
    if !hex.isEmpty && "): ".toList.isPrefixOf after then
      some (after.drop 3)
    else
      none
  else none

/-- Model of `MP3Val.log_matcher`: `^WARNING: .* \(offset 0x[0-9a-f]+\): (.*)$` applied
with `re.match`; returns `group(1)` on success. -/
def mp3valMatch (line : String) : Option String :=
  if "WARNING: ".toList.isPrefixOf line.toList then
    (lastPos offsetReasonAt (line.toList.drop 9)).map fun r => ⟨r⟩
  else none

/-- Model of `MP3Val.parse`: scan stdout lines; the first one matching `log_matcher`
raises `IntegrityError(path, group(1))`. -/
def mp3valParse (stdout : String) (path : String) : Except Err Unit :=
  match (pySplitNl stdout).findSome? mp3valMatch with
  | some reason => .error (.integrity path reason)
  | none => .ok ()

/-- Match `: ERROR,? (.*)$` at the start of `cs`, returning the group (the
greedy `,?` consumes a comma when one is present before the space). -/
def flacErrorAt (cs : List Char) : Option (List Char) :=
  if ": ERROR".toList.isPrefixOf cs then
    let rest := cs.drop 7
    if ", ".toList.isPrefixOf rest then some (rest.drop 2)
    else if " ".toList.isPrefixOf rest then some (rest.drop 1)
    else none
  else none

/-- Model of `FlacTest.error_matcher`: `^.*: ERROR,? (.*)$` applied with `re.match`;
returns `group(1)` on success. -/
def flacMatch (line : String) : Option String :=
  (lastPos flacErrorAt line.toList).map fun r => ⟨r⟩

/-- Model of `FlacTest.parse`: exit code 0 is success; otherwise the first stderr line
matching `error_matcher` raises `IntegrityError(path, group(1))`; when no
line matches, the method falls through and returns normally. -/
def flacParse (stderr : String) (returncode : Int) (path : String) :
    Except Err Unit :=
  if returncode = 0 then .ok ()
  else
    match (pySplitNl stderr).findSome? flacMatch with
    | some reason => .error (.integrity path reason)
    | none => .ok ()

/-- Model of `OggzValidate.parse`: exit code 0 is success; otherwise
`stderr.split('\n')[1]` (an `IndexError` when stderr has fewer than two
lines) with colons removed is the reason of the `IntegrityError`. -/
def oggzParse (stderr : String) (returncode : Int) (path : String) :
    Except Err Unit :=
  if returncode = 0 then .ok ()
  else
    match (pySplitNl stderr).get? 1 with
    | none => .error .indexError
    | some l => .error (.integrity path ⟨l.toList.filter (· ≠ ':')⟩)

/-- Dispatch to the subclass's `parse(stdout, stderr, returncode, path)`. -/
def Checker.parse (c : Checker) (stdout stderr : String) (returncode : Int)
    (path : String) : Except Err Unit :=
  match c with
  | .mp3val => mp3valParse stdout path
  | .flacTest => flacParse stderr returncode path
  | .oggzValidate => oggzParse stderr returncode path

/-- Model of `IntegrityChecker.run(item)`: a no-op for other formats, otherwise spawn
the validator on `item.path` and parse its captured output. -/
def Checker.runOn (w : World) (c : Checker) (item : Item) : Except Err Unit :=
  if item.format ∈ c.formats then
    let r := w.run c.program item.path
    c.parse r.stdout r.stderr r.returncode item.path
  else .ok ()

/-- Model of `verify_integrity(item)`: run every available checker on the item; the
first raised error propagates. -/
def verify_integrity (w : World) (item : Item) : Except Err Unit :=
  (allAvailable w.avail).forM fun c => c.runOn w item

/-- The file system right after the `mp3val -f` subprocess: the file is
rewritten in place and the tool leaves its backup at `path ++ ".bak"` (when
it produces one). -/
def mp3valPostFS (w : World) (fs : FS) (path : String) : FS := fun p =>
  if p = path then w.fixedBytes path
  else if p = path ++ ".bak" then w.bakBytes path
  else fs p

/-- Model of `MP3Val.fix(item, backup)`: run `mp3val -f` on the path, then, when
`backup` is false, `os.remove` the `.bak` file — raising `IOError` when it
is absent.  Returns the resulting file system. -/
def mp3valFix (w : World) (fs : FS) (backup : Bool) (path : String) :
    Except Err FS :=
  let fs1 : FS := mp3valPostFS w fs path
  if backup then .ok fs1
  else
    match fs1 (path ++ ".bak") with
    | none => .error (.io ("No such file or directory: " ++ path ++ ".bak"))
    | some _ => .ok fun p => if p = path ++ ".bak" then none else fs1 p

/-! ## The `check` workflow (`CheckCommand.check`)

The per-item closure classifies each item's result through its
`try`/`except` arms; `execute_with_progress` maps it over all items.  An
exception not matched by any arm would escape the executor and abort the
whole command before the summary lines run; the report records such an
abort separately. -/

/-- The classification of one item by the `check` closure's `except` arms. -/
inductive Outcome where
  | ok
  | checksumFailed
  | integrityWarn (reason : String)
  | ioFailed (msg : String)
  | crashed (e : Err)
  deriving DecidableEq, Repr

/-- Counted into `status['failures']`: `ChecksumError` and `IOError`. -/
def Outcome.isFailure : Outcome → Bool
  | .checksumFailed => true
  | .ioFailed _ => true
  | _ => false

/-- Counted into `status['integrity']`. -/
def Outcome.isIntegrityWarn : Outcome → Bool
  | .integrityWarn _ => true
  | _ => false

/-- An `OK` outcome. -/
def Outcome.isOk : Outcome → Bool
  | .ok => true
  | _ => false

/-- An uncaught exception. -/
def Outcome.crashErr : Outcome → Option Err
  | .crashed e => some e
  | _ => none

/-- The body of the `check` closure: verify the checksum when checksum mode
is on and the item has a truthy `checksum` attribute, then verify integrity
when integrity mode is on. -/
def checkItemBody (w : World) (checksums integrity : Bool) (item : Item) :
    Except Err Unit := do
  if checksums && item.checksum.getD "" != "" then
    verify_checksum w.fs item
  if integrity then
    verify_integrity w item

/-- One item's outcome under the `check` closure's exception handling. -/
def checkItem (w : World) (checksums integrity : Bool) (item : Item) :
    Outcome :=
  match checkItemBody w checksums integrity item with
  | .ok _ => .ok
  | .error (.checksum _ _) => .checksumFailed
  | .error (.integrity _ reason) => .integrityWarn reason
  | .error (.io msg) => .ioFailed msg
  | .error e => .crashed e

/-- The aggregate result of one `check` batch. -/
structure CheckReport where
  outcomes : List Outcome
  failures : Nat
  integrityCount : Nat
  messages : List String
  exitCode : Option Nat
  aborted : Option Err

/-- Lines 271–313 of `check.py`: map the closure over the selected items,
accumulate `status`, emit the summary lines and `sys.exit(15)` when any
failures were counted.  `aborted` records an exception that escaped the
executor (in which case the summary lines never run and no exit status is
chosen by the command). -/
def checkBatch (w : World) (checksums integrity : Bool) (items : List Item) :
    CheckReport :=
  let outs := items.map (checkItem w checksums integrity)
  let failures := outs.countP Outcome.isFailure
  let integrityCount := outs.countP Outcome.isIntegrityWarn
  { outcomes := outs
    failures := failures
    integrityCount := integrityCount
    messages :=
      (if integrityCount ≠ 0 then
        ["Found " ++ toString integrityCount ++ " integrity error(s)"]
      else if !checksums then ["Integrity successfully verified"] else [])
      ++
      (if failures ≠ 0 then
        ["Failed to verify checksum of " ++ toString failures ++ " file(s)"]
      else if checksums then ["All checksums successfully verified"] else [])
    exitCode := if failures ≠ 0 then some 15 else none
    aborted := outs.findSome? Outcome.crashErr }

/-- The warning logged when integrity checking is requested but no checker
is installed. -/
def noCheckersWarning : String :=
  "No integrity checkers found. Run 'beet check --list -tools'"

/-- Lines 253–269 of `check.py` followed by the batch: with integrity
requested but no checkers available, integrity-only mode raises `UserError`
before the batch, and checksum mode proceeds with integrity disabled after
logging the warning.  Returns the pre-batch log lines and the batch report. -/
def checkRun (w : World) (checksums integrity : Bool) (items : List Item) :
    Except Err (List String × CheckReport) :=
  if integrity && (allAvailable w.avail).isEmpty then
    if !checksums then .error (.userError noCheckersWarning)
    else .ok ([noCheckersWarning], checkBatch w checksums false items)
  else
    let pre :=
      if integrity then
        let progs := (allAvailable w.avail).map Checker.program
        let plural := if progs.length > 1 then "s" else ""
        ["Using integrity checker" ++ plural ++ " "
          ++ String.intercalate ", " progs]
      else []
    .ok (pre, checkBatch w checksums integrity items)

/-! ## The `fix` workflow (`CheckCommand.fix`) -/

/-- The body of the first `fix` closure (`check`): verify the checksum when
the item has a `checksum` key, then run the selected fixer's `check` (which
is `run`) on the item. -/
def fixPhase1Body (w : World) (item : Item) : Except Err Unit := do
  if item.checksum.isSome then
    verify_checksum w.fs item
  match fixer w.avail item with
  | some f => f.runOn w item
  | none => pure ()

/-- Did the phase-1 body raise `IntegrityError`?  Such items are appended to
`failed`. -/
def isIntegrityErr : Except Err Unit → Bool
  | .error (.integrity _ _) => true
  | _ => false

/-- The log lines of the phase-1 `except` arms for one item. -/
def fixPhase1Msgs (w : World) (item : Item) : List String :=
  match fixPhase1Body w item with
  | .error (.checksum _ _) => ["FAILED checksum: " ++ item.path]
  | .error (.io msg) => ["ERROR " ++ msg]
  | _ => []

/-- The `failed` list collected by phase 1: the selected items on which
integrity validation raised a violation. -/
def fixFailedSubset (w : World) (items : List Item) : List Item :=
  items.filter fun i => isIntegrityErr (fixPhase1Body w i)

/-- The body of the second `fix` closure (`fix`): find the item's fixer; when
there is one, repair the file (`fixer.fix`) and then refresh the stored
checksum from the repaired bytes (`set_checksum`).  Returns the new file
system and item on success, and the number of repair-tool invocations. -/
def fixOne (w : World) (backup : Bool) (fs : FS) (item : Item) :
    Except Err (FS × Item) × Nat :=
  match fixer w.avail item with
  | none => (.ok (fs, item), 0)
  | some _ =>
      match mp3valFix w fs backup item.path with
      | .error e => (.error e, 1)
      | .ok fs1 =>
          match set_checksum fs1 item with
          | .error e => (.error e, 1)
          | .ok item1 => (.ok (fs1, item1), 1)

/-- Phase 2 over the `failed` list, threading the file system; an exception
escaping an item's `fix` aborts the executor loop. -/
def fixPhase2 (w : World) (backup : Bool) :
    FS → List Item → FS × List Item × Nat × Option Err
  | fs, [] => (fs, [], 0, none)
  | fs, i :: rest =>
      match fixOne w backup fs i with
      | (.ok (fs1, i1), n) =>
          let (fs2, is, m, ab) := fixPhase2 w backup fs1 rest
          (fs2, i1 :: is, n + m, ab)
      | (.error e, n) => (fs, i :: rest, n, some e)

/-- The aggregate result of one `fix` run. -/
structure FixReport where
  failed : List Item
  prompts : Nat
  repairCalls : Nat
  messages : List String
  fs : FS
  items : List Item
  aborted : Option Err

/-- Model of `CheckCommand.fix(ask, backup)`: collect the integrity-failing subset;
when it is empty, log `No MP3 files to fix` and return; otherwise prompt
(unless `ask` is off) and, when confirmed, run phase 2 over the failing
items. -/
def fixRun (w : World) (ask backup userYes : Bool) (items : List Item) :
    FixReport :=
  let failed := fixFailedSubset w items
  let phase1Msgs := items.flatMap (fixPhase1Msgs w)
  if failed.isEmpty then
    { failed := failed, prompts := 0, repairCalls := 0
      messages := phase1Msgs ++ ["No MP3 files to fix"]
      fs := w.fs, items := items, aborted := none }
  else if ask && !userYes then
    { failed := failed, prompts := 1, repairCalls := 0
      messages := phase1Msgs
      fs := w.fs, items := items, aborted := none }
  else
    let (fs2, fixedItems, calls, ab) := fixPhase2 w backup w.fs failed
    { failed := failed, prompts := if ask then 1 else 0
      repairCalls := calls
      messages := phase1Msgs
      fs := fs2, items := fixedItems, aborted := ab }

/-! ## The per-file `fix` state machine -/

/-- The states one file passes through during a `fix` run. -/
inductive FixSt where
  | discovered
  | confirmed
  | skipped
  | fixedFile
  | fixFailed
  | checksumRefreshed
  deriving DecidableEq, Repr

/-- The transitions of the spec's per-file `fix` state machine. -/
def FixSt.step : FixSt → FixSt → Bool
  | .discovered, .confirmed => true
  | .discovered, .skipped => true
  | .confirmed, .fixedFile => true
  | .confirmed, .fixFailed => true
  | .fixedFile, .checksumRefreshed => true
  | _, _ => false

/-- The state trace of one discovered (integrity-failing) file during a
`fix` run: the batch-level confirmation either skips it or confirms it; a
confirmed file with a fixer is repaired (or the repair raises), and a
repaired file has its checksum refreshed (when `set_checksum` succeeds). -/
def fixItemTrace (w : World) (backup : Bool) (fs : FS) (confirmed : Bool)
    (item : Item) : List FixSt :=
  .discovered ::
    (if !confirmed then [.skipped]
     else .confirmed ::
       (match fixer w.avail item with
        | none => []
        | some _ =>
            match mp3valFix w fs backup item.path with
            | .error _ => [.fixFailed]
            | .ok fs1 =>
                match set_checksum fs1 item with
                | .error _ => [.fixedFile]
                | .ok _ => [.fixedFile, .checksumRefreshed]))

/-! ## The `export` workflow (`CheckCommand.export`)

`export` only prints; it runs no subprocess and stores nothing, so its
embedding is a pure function from the selected items to the printed text. -/

/-- The `(checksum, path)` pairs of the selected items with a truthy stored
checksum. -/
def storedPairs (lib : List Item) : List (String × String) :=
  lib.filterMap fun i =>
    if i.checksum.getD "" != "" then some (i.checksum.getD "", i.path)
    else none

/-- The lines `export` prints: one `<checksum> *<path>` line per selected
item with a truthy stored checksum, in order, no header. -/
def exportLines (lib : List Item) : List String :=
  lib.filterMap fun i =>
    if i.checksum.getD "" != "" then
      some (i.checksum.getD "" ++ " *" ++ i.path)
    else none

/-- The full printed output: every line newline-terminated. -/
def exportOutput (lib : List Item) : List Char :=
  (exportLines lib).flatMap fun l => l.toList ++ ['\n']

/-- Modelled from the spec: split a character list at the first occurrence of
`sep`, for re-parsing `export` output (the repository has no import parser;
the spec fixes the line format `<checksum> *<path>`). -/
def splitFirstAt (sep : List Char) : List Char → Option (List Char × List Char)
  | [] => none
  | c :: rest =>
      if sep.isPrefixOf (c :: rest) then some ([], (c :: rest).drop sep.length)
      else (splitFirstAt sep rest).map fun p => (c :: p.1, p.2)

/-- Modelled from the spec: re-parse one `export` line `<checksum> *<path>`
by splitting at the first `" *"`. -/
def parseExportLine (cs : List Char) : Option (String × String) :=
  (splitFirstAt " *".toList cs).map fun p => (⟨p.1⟩, ⟨p.2⟩)

/-- Modelled from the spec: re-parse a whole `export` output into its
`(checksum, path)` pairs — split the text into lines and parse each line
that has the `<checksum> *<path>` shape (the trailing empty piece after the
final newline has no `" *"` and parses to nothing). -/
def parseExport (out : List Char) : List (String × String) :=
  (splitNlCh out).filterMap parseExportLine

/-! ## Claim C1: `verify_checksum` succeeds iff the digest matches -/

/-- C1: for an item with stored checksum `C` whose file holds `bytes`,
`verify_checksum` returns normally iff the hex SHA-256 digest of the full
file content equals `C` byte-for-byte, and otherwise raises the
`ChecksumError` (`ChecksumMismatch`); `compute_checksum` is exactly that
digest. -/
theorem C1_verify_checksum_iff_digest (fs : FS) (item : Item) (C : String)
    (bytes : List Nat) (hC : item.checksum = some C)
    (hb : fs item.path = some bytes) :
    compute_checksum fs item = .ok (sha256Hex bytes)
    ∧ (verify_checksum fs item = .ok () ↔ sha256Hex bytes = C)
    ∧ (sha256Hex bytes ≠ C →
        verify_checksum fs item =
          .error (.checksum item.path
            "checksum did not match value in library.")) := by
  have hcc : compute_checksum fs item = .ok (sha256Hex bytes) := by
    simp [compute_checksum, hb]
  have hv : verify_checksum fs item =
      if C = sha256Hex bytes then Except.ok () else
        .error (.checksum item.path
          "checksum did not match value in library.") := by
    unfold verify_checksum
    rw [hC]
    by_cases h : C = sha256Hex bytes <;>
      simp [hcc, h, Except.bind, bind, pure, Except.pure]
  refine ⟨hcc, ?_, ?_⟩
  · rw [hv]
    constructor
    · intro hok
      by_contra hne
      rw [if_neg fun hh => hne hh.symm] at hok
      exact Except.noConfusion hok
    · intro h
      rw [if_pos h.symm]
  · intro hne
    rw [hv, if_neg fun hh => hne hh.symm]

/-- A sample item whose stored checksum matches its file's bytes. -/
def itemA : Item :=
  { path := "a.mp3", format := "MP3", checksum := some (sha256Hex [1, 2, 3]) }

/-- A sample file system holding `itemA`'s file. -/
def fsA : FS := fun p => if p = "a.mp3" then some [1, 2, 3] else none

/-- Witness for C1 at a concrete item and file system. -/
theorem C1_witness :
    compute_checksum fsA itemA = .ok (sha256Hex [1, 2, 3])
    ∧ (verify_checksum fsA itemA = .ok ()
        ↔ sha256Hex [1, 2, 3] = sha256Hex [1, 2, 3])
    ∧ (sha256Hex [1, 2, 3] ≠ sha256Hex [1, 2, 3] →
        verify_checksum fsA itemA =
          .error (.checksum "a.mp3"
            "checksum did not match value in library.")) :=
  C1_verify_checksum_iff_digest fsA itemA (sha256Hex [1, 2, 3]) [1, 2, 3]
    rfl rfl

/-! ## Claim C9: the OGG parser is not total -/

/-- C9: whenever `OggzValidate.parse` runs with a non-zero exit code and a
captured stderr of fewer than two lines, indexing the second stderr line
raises `IndexError`, not `IntegrityViolation`. -/
theorem C9_oggz_short_stderr_index_error (stdout stderr : String)
    (returncode : Int) (path : String) (hrc : returncode ≠ 0)
    (hshort : (pySplitNl stderr).length < 2) :
    Checker.parse .oggzValidate stdout stderr returncode path
      = .error .indexError := by
  unfold Checker.parse oggzParse
  rw [if_neg hrc]
  rw [List.get?_eq_none.mpr (by omega)]

/-- Witness for C9: empty stderr (one line after splitting) and exit code 1. -/
theorem C9_witness :
    Checker.parse .oggzValidate "" "" 1 "c.ogg" = .error .indexError :=
  C9_oggz_short_stderr_index_error "" "" 1 "c.ogg" (by decide) (by decide)

/-! ## Claim C10: a failing FLAC exit code alone raises nothing -/

/-- C10: whenever `FlacTest.parse` runs with a non-zero exit code and no
stderr line matches the `: ERROR` pattern, it returns success and raises no
violation. -/
theorem C10_flac_nonzero_no_match_ok (stdout stderr : String)
    (returncode : Int) (path : String) (hrc : returncode ≠ 0)
    (hnm : ∀ l ∈ pySplitNl stderr, flacMatch l = none) :
    Checker.parse .flacTest stdout stderr returncode path = .ok () := by
  unfold Checker.parse flacParse
  rw [if_neg hrc]
  rw [List.findSome?_eq_none_iff.mpr hnm]

/-- Witness for C10: a stderr whose lines contain no `: ERROR` match, exit
code 1. -/
theorem C10_witness :
    Checker.parse .flacTest "" "flac 1.3.2\ncorrupt file" 1 "d.flac"
      = .ok () :=
  C10_flac_nonzero_no_match_ok "" "flac 1.3.2\ncorrupt file" 1 "d.flac"
    (by decide) (by decide)

/-! ## Claim C7: backup-artifact handling of `MP3Val.fix` -/

/-- A path is never equal to its `.bak` companion. -/
theorem bak_ne (path : String) : path ++ ".bak" ≠ path := by
  intro h
  have hlen := congrArg String.length h
  rw [String.length_append] at hlen
  have h4 : (".bak" : String).length = 4 := rfl
  omega

/-- The `.bak` entry of the resulting file system, when the repair returned
one. -/
def bakAfter (r : Except Err FS) (path : String) : Option (Option (List Nat)) :=
  match r with
  | .ok fs2 => some (fs2 (path ++ ".bak"))
  | .error _ => none

/-- C7: with backup disabled, `MP3Val.fix` deletes the `.bak` artifact the
tool produced, and when the backup file is absent the deletion raises
`IOError` rather than being a guarded no-op; with backup enabled the `.bak`
file is left in place. -/
theorem C7_backup_removal (w : World) (fs : FS) (path : String) :
    ((w.bakBytes path).isSome = true →
      bakAfter (mp3valFix w fs false path) path = some none)
    ∧ (w.bakBytes path = none →
      mp3valFix w fs false path =
        .error (.io ("No such file or directory: " ++ path ++ ".bak")))
    ∧ bakAfter (mp3valFix w fs true path) path = some (w.bakBytes path) := by
  have hne := bak_ne path
  have hpost : mp3valPostFS w fs path (path ++ ".bak") = w.bakBytes path := by
    unfold mp3valPostFS
    rw [if_neg hne, if_pos rfl]
  refine ⟨?_, ?_, ?_⟩
  · intro hsome
    obtain ⟨b, hb⟩ := Option.isSome_iff_exists.mp hsome
    unfold mp3valFix bakAfter
    simp only [Bool.false_eq_true, if_false, hpost, hb]
    simp
  · intro hnone
    unfold mp3valFix
    simp only [Bool.false_eq_true, if_false, hpost, hnone]
  · unfold mp3valFix bakAfter
    simp [hpost]

/-- A world whose `mp3val -f` leaves a repaired file and a backup. -/
def worldBak : World :=
  { fs := fun _ => none
    avail := fun p => p == "mp3val"
    run := fun _ _ => ⟨"", "", 0⟩
    fixedBytes := fun _ => some [0]
    bakBytes := fun _ => some [7] }

/-- A world whose `mp3val -f` leaves no backup file. -/
def worldNoBak : World :=
  { fs := fun _ => none
    avail := fun p => p == "mp3val"
    run := fun _ _ => ⟨"", "", 0⟩
    fixedBytes := fun _ => some [0]
    bakBytes := fun _ => none }

/-- Witness for C7 at concrete worlds with and without a produced backup. -/
theorem C7_witness :
    bakAfter (mp3valFix worldBak (fun _ => none) false "x.mp3") "x.mp3"
        = some none
    ∧ mp3valFix worldNoBak (fun _ => none) false "x.mp3"
        = .error (.io ("No such file or directory: " ++ "x.mp3" ++ ".bak"))
    ∧ bakAfter (mp3valFix worldBak (fun _ => none) true "x.mp3") "x.mp3"
        = some (worldBak.bakBytes "x.mp3") :=
  ⟨(C7_backup_removal worldBak (fun _ => none) "x.mp3").1 rfl,
   (C7_backup_removal worldNoBak (fun _ => none) "x.mp3").2.1 rfl,
   (C7_backup_removal worldBak (fun _ => none) "x.mp3").2.2⟩

/-! ## Claim C6: integrity requested with no checkers available -/

/-- C6: when no integrity checker is available, an integrity-only check run
raises the fatal `UserError` before any batch execution (independently of
the selected items), while a combined checksums-and-integrity run proceeds
in checksum-only mode after emitting the warning. -/
theorem C6_no_checkers (w : World) (hna : allAvailable w.avail = []) :
    (∀ items, checkRun w false true items
        = .error (.userError noCheckersWarning))
    ∧ (∀ items, checkRun w true true items
        = .ok ([noCheckersWarning], checkBatch w true false items)) := by
  constructor
  · intro items
    unfold checkRun
    rw [hna]
    simp
  · intro items
    unfold checkRun
    rw [hna]
    simp

/-- A world with no external tools installed. -/
def worldNoTools : World :=
  { fs := fsA
    avail := fun _ => false
    run := fun _ _ => ⟨"", "", 0⟩
    fixedBytes := fun _ => none
    bakBytes := fun _ => none }

/-- Witness for C6 at a concrete toolless world and item list. -/
theorem C6_witness :
    checkRun worldNoTools false true [itemA]
        = .error (.userError noCheckersWarning)
    ∧ checkRun worldNoTools true true [itemA]
        = .ok ([noCheckersWarning], checkBatch worldNoTools true false [itemA]) :=
  ⟨(C6_no_checkers worldNoTools rfl).1 [itemA],
   (C6_no_checkers worldNoTools rfl).2 [itemA]⟩

/-! ## Claim C3: what drives the exit status of a check run

The claim says exit status 15 occurs iff at least one checksum verification
failure occurred.  In the code, `status['failures']` is incremented both by
the `ChecksumError` arm and by the `IOError` arm, and `sys.exit(15)` fires
whenever `status['failures']` is non-zero — so a run with an unreadable file
and no checksum mismatch also exits 15.  The claim is corrected: exit 15
occurs iff at least one checksum failure or I/O error occurred; integrity
warnings still never affect the exit status. -/

/-- A `checksumFailed` outcome. -/
def Outcome.isChecksumFailed : Outcome → Bool
  | .checksumFailed => true
  | _ => false

/-- An item whose stored checksum exists but whose file is missing. -/
def itemGone : Item :=
  { path := "gone.mp3", format := "MP3", checksum := some "ff" }

/-- A world with no files and no tools. -/
def worldGone : World :=
  { fs := fun _ => none
    avail := fun _ => false
    run := fun _ _ => ⟨"", "", 0⟩
    fixedBytes := fun _ => none
    bakBytes := fun _ => none }

/-- Counterexample to C3 as stated: a checksum-mode run over one item whose
file is unreadable exits with status 15 although zero checksum verification
failures occurred (the one failure is an `IOError`). -/
theorem C3_counterexample :
    (checkBatch worldGone true false [itemGone]).aborted = none
    ∧ (checkBatch worldGone true false [itemGone]).outcomes.countP
        Outcome.isChecksumFailed = 0
    ∧ (checkBatch worldGone true false [itemGone]).exitCode = some 15 :=
  ⟨rfl, rfl, rfl⟩

/-- C3 (amended): a completed check run exits with the distinguished status
15 iff at least one checksum failure or I/O error occurred; integrity
warnings never enter `status['failures']` and the run returns normally
(exit 0) exactly when no checksum failure or I/O error occurred. -/
theorem C3_exit_status_amended (w : World) (checksums integrity : Bool)
    (items : List Item)
    (hdone : (checkBatch w checksums integrity items).aborted = none) :
    (checkBatch w checksums integrity items).failures
        = (checkBatch w checksums integrity items).outcomes.countP
            Outcome.isFailure
    ∧ ((checkBatch w checksums integrity items).exitCode = some 15
        ↔ 0 < (checkBatch w checksums integrity items).outcomes.countP
            Outcome.isFailure)
    ∧ ((checkBatch w checksums integrity items).exitCode = none
        ↔ (checkBatch w checksums integrity items).outcomes.countP
            Outcome.isFailure = 0)
    ∧ (∀ o ∈ (checkBatch w checksums integrity items).outcomes,
        Outcome.isIntegrityWarn o = true → Outcome.isFailure o = false) := by
  refine ⟨rfl, ?_, ?_, ?_⟩
  · simp only [checkBatch]
    by_cases h : (items.map (checkItem w checksums integrity)).countP
        Outcome.isFailure = 0 <;> simp [h]
  · simp only [checkBatch]
    by_cases h : (items.map (checkItem w checksums integrity)).countP
        Outcome.isFailure = 0 <;> simp [h]
  · intro o _ hw
    cases o <;> simp_all [Outcome.isIntegrityWarn, Outcome.isFailure]

/-- Witness for the amended C3 at a concrete completed run. -/
theorem C3_witness :
    (checkBatch worldGone true false [itemGone]).failures
        = (checkBatch worldGone true false [itemGone]).outcomes.countP
            Outcome.isFailure
    ∧ ((checkBatch worldGone true false [itemGone]).exitCode = some 15
        ↔ 0 < (checkBatch worldGone true false [itemGone]).outcomes.countP
            Outcome.isFailure)
    ∧ ((checkBatch worldGone true false [itemGone]).exitCode = none
        ↔ (checkBatch worldGone true false [itemGone]).outcomes.countP
            Outcome.isFailure = 0)
    ∧ (∀ o ∈ (checkBatch worldGone true false [itemGone]).outcomes,
        Outcome.isIntegrityWarn o = true → Outcome.isFailure o = false) :=
  C3_exit_status_amended worldGone true false [itemGone] rfl

/-! ## Claim C2: one corrupted item does not disturb the rest -/

/-- Did an `Except` computation raise `ChecksumError`? -/
def isChecksumExc : Except Err Unit → Bool
  | .error (.checksum _ _) => true
  | _ => false

/-- Counting over a map whose values are all `OK`. -/
theorem countP_map_all_ok {α : Type} (f : α → Outcome) (p : Outcome → Bool)
    (l : List α) (h : ∀ x ∈ l, f x = .ok) :
    (l.map f).countP p = if p .ok then l.length else 0 := by
  induction l with
  | nil => simp
  | cons a rest ih =>
      have ha : f a = .ok := h a (by simp)
      rw [List.map_cons, List.countP_cons, ih fun x hx => h x (by simp [hx])]
      by_cases hp : p .ok = true <;> simp [ha, hp]

/-- Counting over a map with exactly one `checksumFailed` value, all the
others `OK`. -/
theorem countP_map_single_bad {α : Type} (f : α → Outcome) (p : Outcome → Bool) :
    ∀ (l : List α) (k : Nat) (hk : k < l.length),
      f (l.get ⟨k, hk⟩) = .checksumFailed →
      (∀ i (hi : i < l.length), i ≠ k → f (l.get ⟨i, hi⟩) = .ok) →
      (l.map f).countP p
        = (if p .checksumFailed then 1 else 0)
          + (if p .ok then l.length - 1 else 0) := by
  intro l
  induction l with
  | nil => intro k hk; exact absurd hk (by simp)
  | cons a rest ih =>
      intro k hk hbad hgood
      cases k with
      | zero =>
          have hrest : ∀ x ∈ rest, f x = .ok := by
            intro x hx
            obtain ⟨⟨i, hi⟩, rfl⟩ := List.mem_iff_get.mp hx
            have := hgood (i + 1) (by simpa using Nat.succ_lt_succ hi)
              (by omega)
            simpa using this
          have ha : f a = .checksumFailed := hbad
          rw [List.map_cons, List.countP_cons, countP_map_all_ok f p rest hrest]
          by_cases hp1 : p .checksumFailed = true <;>
            by_cases hp2 : p .ok = true <;> simp [ha, hp1, hp2] <;> omega
      | succ j =>
          have ha : f a = .ok := hgood 0 (by simp) (by omega)
          have hj : j < rest.length := by
            simpa using Nat.lt_of_succ_lt_succ hk
          have hbad2 : f (rest.get ⟨j, hj⟩) = .checksumFailed := hbad
          have hgood2 : ∀ i (hi : i < rest.length), i ≠ j →
              f (rest.get ⟨i, hi⟩) = .ok := by
            intro i hi hij
            have := hgood (i + 1) (by simpa using Nat.succ_lt_succ hi)
              (by omega)
            simpa using this
          rw [List.map_cons, List.countP_cons, ih j hj hbad2 hgood2]
          by_cases hp1 : p .checksumFailed = true <;>
            by_cases hp2 : p .ok = true <;> simp [ha, hp1, hp2] <;> omega

/-- A clean item (checksum verifies when present, integrity verifies)
classifies as `OK`. -/
theorem checkItem_eq_ok (w : World) (integrity : Bool) (item : Item)
    (h1 : item.checksum.getD "" ≠ "" → verify_checksum w.fs item = .ok ())
    (h2 : verify_integrity w item = .ok ()) :
    checkItem w true integrity item = .ok := by
  unfold checkItem checkItemBody
  by_cases hc : item.checksum.getD "" = ""
  · cases integrity <;>
      simp [hc, h2, bind, Except.bind, pure, Except.pure]
  · have hv := h1 hc
    cases integrity <;>
      simp [hc, hv, h2, bind, Except.bind, pure, Except.pure]

/-- An item whose checksum verification raises `ChecksumError` classifies as
`checksumFailed`, in any integrity mode. -/
theorem checkItem_eq_checksumFailed (w : World) (integrity : Bool)
    (item : Item) (h1 : item.checksum.getD "" ≠ "")
    (h2 : isChecksumExc (verify_checksum w.fs item) = true) :
    checkItem w true integrity item = .checksumFailed := by
  match hval : verify_checksum w.fs item with
  | .ok _ => rw [hval] at h2; simp [isChecksumExc] at h2
  | .error e =>
      cases e <;> rw [hval] at h2 <;> simp [isChecksumExc] at h2
      rename_i p m
      unfold checkItem checkItemBody
      cases integrity <;>
        simp [h1, hval, bind, Except.bind, pure, Except.pure]

/-- C2: in a checksum-mode run over `N` items in which exactly the item at
position `k` fails checksum verification and every other item verifies
cleanly, all `N` items are processed (no abort), exactly `N - 1` outcomes
are `OK` and exactly one is a checksum failure, whatever `k` is; the one
failure is also the whole failure count. -/
theorem C2_single_corruption_isolation (w : World) (integrity : Bool)
    (items : List Item) (k : Nat) (hk : k < items.length)
    (hbadTruthy : (items.get ⟨k, hk⟩).checksum.getD "" ≠ "")
    (hbad : isChecksumExc (verify_checksum w.fs (items.get ⟨k, hk⟩)) = true)
    (hclean : ∀ i (hi : i < items.length), i ≠ k →
        (items.get ⟨i, hi⟩).checksum.getD "" ≠ "" →
        verify_checksum w.fs (items.get ⟨i, hi⟩) = .ok ())
    (hintg : ∀ i (hi : i < items.length),
        verify_integrity w (items.get ⟨i, hi⟩) = .ok ()) :
    (checkBatch w true integrity items).outcomes.length = items.length
    ∧ (checkBatch w true integrity items).outcomes.countP Outcome.isOk
        = items.length - 1
    ∧ (checkBatch w true integrity items).outcomes.countP
        Outcome.isChecksumFailed = 1
    ∧ (checkBatch w true integrity items).failures = 1
    ∧ (checkBatch w true integrity items).aborted = none := by
  have hfbad : checkItem w true integrity (items.get ⟨k, hk⟩)
      = .checksumFailed :=
    checkItem_eq_checksumFailed w integrity _ hbadTruthy hbad
  have hfgood : ∀ i (hi : i < items.length), i ≠ k →
      checkItem w true integrity (items.get ⟨i, hi⟩) = .ok := fun i hi hik =>
    checkItem_eq_ok w integrity _ (hclean i hi hik) (hintg i hi)
  have hout : (checkBatch w true integrity items).outcomes
      = items.map (checkItem w true integrity) := rfl
  refine ⟨by simp [hout], ?_, ?_, ?_, ?_⟩
  · rw [hout, countP_map_single_bad _ Outcome.isOk items k hk hfbad hfgood]
    simp [Outcome.isOk]
  · rw [hout,
      countP_map_single_bad _ Outcome.isChecksumFailed items k hk hfbad hfgood]
    simp [Outcome.isChecksumFailed]
  · show (items.map (checkItem w true integrity)).countP Outcome.isFailure = 1
    rw [countP_map_single_bad _ Outcome.isFailure items k hk hfbad hfgood]
    simp [Outcome.isFailure]
  · show (items.map (checkItem w true integrity)).findSome? Outcome.crashErr
        = none
    rw [List.findSome?_eq_none_iff]
    intro o ho
    obtain ⟨x, hx, rfl⟩ := List.mem_map.mp ho
    obtain ⟨⟨i, hi⟩, rfl⟩ := List.mem_iff_get.mp hx
    by_cases hik : i = k
    · subst hik
      rw [hfbad]
      rfl
    · rw [hfgood i hi hik]
      rfl

/-- An item with no stored checksum. -/
def itemNoCk : Item := { path := "c.ogg", format := "OGG", checksum := none }

/-- An item whose stored checksum cannot match any digest. -/
def itemBadCk : Item :=
  { path := "b.mp3", format := "MP3", checksum := some "deadbeef" }

/-- A world holding only `itemBadCk`'s (empty) file, with no tools. -/
def worldC2 : World :=
  { fs := fun p => if p = "b.mp3" then some [] else none
    avail := fun _ => false
    run := fun _ _ => ⟨"", "", 0⟩
    fixedBytes := fun _ => none
    bakBytes := fun _ => none }

/-- Witness for C2: a two-item run with the corrupted item in position 1. -/
theorem C2_witness :
    (checkBatch worldC2 true false [itemNoCk, itemBadCk]).outcomes.length = 2
    ∧ (checkBatch worldC2 true false [itemNoCk, itemBadCk]).outcomes.countP
        Outcome.isOk = 1
    ∧ (checkBatch worldC2 true false [itemNoCk, itemBadCk]).outcomes.countP
        Outcome.isChecksumFailed = 1
    ∧ (checkBatch worldC2 true false [itemNoCk, itemBadCk]).failures = 1
    ∧ (checkBatch worldC2 true false [itemNoCk, itemBadCk]).aborted = none :=
  C2_single_corruption_isolation worldC2 false [itemNoCk, itemBadCk] 1
    (by decide) (by decide) (by decide)
    (by
      intro i hi hik htruthy
      match i with
      | 0 => exact absurd rfl htruthy
      | 1 => exact absurd rfl hik
      | i + 2 =>
          have h2 : i + 2 < 2 := by simpa using hi
          omega)
    (fun i hi => rfl)

/-! ## Claim C4: `fix` with nothing to fix -/

/-- C4: the `fix` workflow collects exactly the items on which phase-1
validation raised an integrity violation (in every branch of the workflow),
and when that subset is empty it logs `No MP3 files to fix`, prompts nobody,
invokes the repair tool zero times, and leaves both the file system and the
selected items untouched. -/
theorem C4_fix_nothing_to_fix (w : World) (ask backup userYes : Bool)
    (items : List Item) (h : fixFailedSubset w items = []) :
    fixRun w ask backup userYes items =
      { failed := []
        prompts := 0
        repairCalls := 0
        messages := items.flatMap (fixPhase1Msgs w) ++ ["No MP3 files to fix"]
        fs := w.fs
        items := items
        aborted := none }
    ∧ ∀ items2, (fixRun w ask backup userYes items2).failed
        = fixFailedSubset w items2 := by
  constructor
  · unfold fixRun
    rw [h]
    simp
  · intro items2
    unfold fixRun
    by_cases h2 : (fixFailedSubset w items2).isEmpty
    · simp [h2]
    · rcases hfp : fixPhase2 w backup w.fs (fixFailedSubset w items2) with
        ⟨fs2, fixedItems, calls, ab⟩
      by_cases h3 : ask && !userYes <;> simp [h2, h3, hfp]

/-- Witness for C4 at a concrete world and a one-item selection with no
violations. -/
theorem C4_witness :
    fixRun worldNoTools true true true [itemNoCk] =
      { failed := []
        prompts := 0
        repairCalls := 0
        messages := [itemNoCk].flatMap (fixPhase1Msgs worldNoTools)
          ++ ["No MP3 files to fix"]
        fs := worldNoTools.fs
        items := [itemNoCk]
        aborted := none } :=
  (C4_fix_nothing_to_fix worldNoTools true true true [itemNoCk] rfl).1

/-! ## Claim C5: a successful repair refreshes the checksum -/

/-- After a successful `MP3Val.fix`, the repaired path holds exactly the
bytes the tool left there. -/
theorem mp3valFix_path (w : World) (fs : FS) (backup : Bool) (path : String)
    (fsx : FS) (h : mp3valFix w fs backup path = .ok fsx) :
    fsx path = w.fixedBytes path := by
  have hne : path ≠ path ++ ".bak" := fun hh => bak_ne path hh.symm
  unfold mp3valFix at h
  cases backup with
  | true =>
      simp only [if_pos rfl] at h
      obtain rfl := (Except.ok.inj h).symm
      simp [mp3valPostFS]
  | false =>
      simp only [Bool.false_eq_true, if_false] at h
      rcases hbb : mp3valPostFS w fs path (path ++ ".bak") with _ | b <;>
        rw [hbb] at h
      · exact absurd h (by simp)
      · obtain rfl := (Except.ok.inj h).symm
        simp [hne, mp3valPostFS]

/-- C5: whenever the per-item `fix` closure succeeds on an item that has a
fixer, the item's stored checksum has been recomputed from the repaired
file's bytes (the bytes `mp3val -f` left at the path) and persisted, after
exactly one repair invocation; and every per-file state trace of a `fix`
run starts at `DISCOVERED`, follows the transition relation of the state
machine (under which `CHECKSUM_REFRESHED` is reachable only from the
successfully-fixed state), and never revisits a state. -/
theorem C5_fix_checksum_refresh_machine (w : World) (backup : Bool) (fs : FS)
    (item : Item) (confirmed : Bool)
    (hfx : (fixer w.avail item).isSome = true) :
    (∀ fs1 item1 n, fixOne w backup fs item = (Except.ok (fs1, item1), n) →
        fs1 item.path = w.fixedBytes item.path
        ∧ item1.checksum = (fs1 item.path).map sha256Hex
        ∧ (fs1 item.path).isSome = true
        ∧ item1.path = item.path ∧ n = 1)
    ∧ (fixItemTrace w backup fs confirmed item).head? = some .discovered
    ∧ (fixItemTrace w backup fs confirmed item).Nodup
    ∧ List.Chain' (fun a b => FixSt.step a b = true)
        (fixItemTrace w backup fs confirmed item)
    ∧ (∀ s, FixSt.step s .checksumRefreshed = true → s = .fixedFile) := by
  have htr : fixItemTrace w backup fs confirmed item = [.discovered, .skipped]
      ∨ fixItemTrace w backup fs confirmed item = [.discovered, .confirmed]
      ∨ fixItemTrace w backup fs confirmed item
          = [.discovered, .confirmed, .fixFailed]
      ∨ fixItemTrace w backup fs confirmed item
          = [.discovered, .confirmed, .fixedFile]
      ∨ fixItemTrace w backup fs confirmed item
          = [.discovered, .confirmed, .fixedFile, .checksumRefreshed] := by
    unfold fixItemTrace
    cases confirmed with
    | false => simp
    | true =>
        rcases hf : fixer w.avail item with _ | c <;> simp only [hf] <;> simp
        rcases hm : mp3valFix w fs backup item.path with e | fsx <;>
          simp only [hm]
        · simp
        · rcases hs : set_checksum fsx item with e2 | it2 <;>
            simp only [hs] <;> simp
  refine ⟨?_, ?_, ?_, ?_, ?_⟩
  · intro fs1 item1 n hrun
    rcases hf : fixer w.avail item with _ | c
    · rw [hf] at hfx
      exact absurd hfx (by simp)
    · unfold fixOne at hrun
      rw [hf] at hrun
      rcases hm : mp3valFix w fs backup item.path with e | fsx <;>
        rw [hm] at hrun
      · exact absurd hrun (by simp)
      · rcases hb : fsx item.path with _ | bytes <;>
          simp only [set_checksum, compute_checksum, hb, Except.map] at hrun
        · exact absurd hrun (by simp)
        · injection hrun with hpair hn
          injection hpair with hprod
          injection hprod with hfs hitem
          subst hfs
          subst hitem
          subst hn
          refine ⟨mp3valFix_path w fs backup item.path fsx hm, ?_, ?_, rfl,
            rfl⟩
          · rw [hb]
            rfl
          · rw [hb]
            rfl
  · rcases htr with h | h | h | h | h <;> rw [h] <;> decide
  · rcases htr with h | h | h | h | h <;> rw [h] <;> decide
  · rcases htr with h | h | h | h | h <;> rw [h] <;>
      simp [List.chain'_cons, List.chain'_singleton, FixSt.step]
  · intro s hs
    cases s <;> simp_all [FixSt.step]

/-- An MP3 item to repair. -/
def itemFixW : Item := { path := "x.mp3", format := "MP3", checksum := some "old" }

/-- Witness for C5: a successful repair in `worldBak` (backup kept), with
the post-repair file system and refreshed item spelled out. -/
theorem C5_witness :
    mp3valPostFS worldBak (fun _ => none) "x.mp3" "x.mp3"
        = worldBak.fixedBytes "x.mp3"
    ∧ (Item.mk "x.mp3" "MP3" (some (sha256Hex [0]))).checksum
        = (mp3valPostFS worldBak (fun _ => none) "x.mp3" "x.mp3").map sha256Hex
    ∧ (mp3valPostFS worldBak (fun _ => none) "x.mp3" "x.mp3").isSome = true
    ∧ (Item.mk "x.mp3" "MP3" (some (sha256Hex [0]))).path = itemFixW.path
    ∧ (1 : Nat) = 1 :=
  (C5_fix_checksum_refresh_machine worldBak true (fun _ => none) itemFixW
      true rfl).1
    (mp3valPostFS worldBak (fun _ => none) "x.mp3")
    (Item.mk "x.mp3" "MP3" (some (sha256Hex [0]))) 1 rfl

/-! ## Claim C8: `export` round-trips -/

/-- Splitting at newlines undoes appending a newline-terminated line that
contains no newline. -/
theorem splitNlCh_append (l rest : List Char) (hl : Char.ofNat 10 ∉ l) :
    splitNlCh (l ++ Char.ofNat 10 :: rest) = l :: splitNlCh rest := by
  induction l with
  | nil => simp [splitNlCh]
  | cons c l2 ih =>
      have hc : c ≠ Char.ofNat 10 := fun hh => hl (by simp [hh])
      have hl2 : Char.ofNat 10 ∉ l2 := fun hh => hl (by simp [hh])
      rw [List.cons_append]
      simp only [splitNlCh]
      rw [if_neg (by simpa using hc), ih hl2]

/-- Splitting at the first `" *"` undoes inserting one after a piece with no
space. -/
theorem splitFirstAt_star (c p : List Char) (hc : ∀ ch ∈ c, ch ≠ ' ') :
    splitFirstAt [' ', '*'] (c ++ ' ' :: '*' :: p) = some (c, p) := by
  induction c with
  | nil =>
      simp only [List.nil_append, splitFirstAt]
      rw [if_pos (by simp [List.isPrefixOf])]
      rfl
  | cons ch c2 ih =>
      have hch : ch ≠ ' ' := hc ch (by simp)
      simp only [List.cons_append, splitFirstAt, List.append_eq]
      rw [if_neg (by simp [List.isPrefixOf]; intro hh; exact absurd hh.symm hch),
        ih fun x hx => hc x (by simp [hx])]
      rfl

/-- Re-parsing one well-formed export line recovers its two pieces. -/
theorem parseExportLine_append (c p : List Char) (hc : ∀ ch ∈ c, ch ≠ ' ') :
    parseExportLine (c ++ ' ' :: '*' :: p) = some (⟨c⟩, ⟨p⟩) := by
  unfold parseExportLine
  have hsep : (" *".toList : List Char) = [' ', '*'] := rfl
  rw [hsep, splitFirstAt_star c p hc]
  rfl

/-- Re-parsing the newline-terminated concatenation of well-formed export
lines recovers exactly the emitted pairs. -/
theorem parseExport_lines (pairs : List (String × String))
    (h : ∀ pr ∈ pairs, (∀ ch ∈ pr.1.toList, ch ≠ ' ' ∧ ch ≠ Char.ofNat 10)
        ∧ Char.ofNat 10 ∉ pr.2.toList) :
    parseExport ((pairs.map fun pr =>
        (pr.1 ++ " *" ++ pr.2).toList ++ [Char.ofNat 10]).flatten) = pairs := by
  induction pairs with
  | nil => rfl
  | cons pr rest ih =>
      obtain ⟨hpr1, hpr2⟩ := h pr (by simp)
      have hline : (pr.1 ++ " *" ++ pr.2).toList
          = pr.1.toList ++ ' ' :: '*' :: pr.2.toList := by
        simp [String.toList, String.data_append]
      have hnl : Char.ofNat 10 ∉ (pr.1 ++ " *" ++ pr.2).toList := by
        rw [hline]
        simp only [List.mem_append, List.mem_cons, not_or]
        refine ⟨fun hh => ?_, by decide, by decide, hpr2⟩
        exact (hpr1 _ hh).2 rfl
      have ih2 := ih fun x hx => h x (by simp [hx])
      unfold parseExport at ih2 ⊢
      rw [List.map_cons, List.flatten_cons, List.append_assoc,
        List.singleton_append, splitNlCh_append _ _ hnl,
        List.filterMap_cons, hline,
        parseExportLine_append _ _ (fun ch hch => (hpr1 ch hch).1), ih2]
      rfl

/-- C8: `export` emits one `<checksum> *<path>` line per selected item with
a (truthy) stored checksum and no others, each newline-terminated with no
header, and re-parsing the printed output reconstructs exactly the stored
`(checksum, path)` pairs — no more, no fewer.  The embedding of `export` is
a pure function of the selected items: the code only prints, so it mutates
neither files nor catalog state. -/
theorem C8_export_roundtrip (lib : List Item)
    (hck : ∀ i ∈ lib, ∀ ch ∈ (i.checksum.getD "").toList,
        ch ≠ ' ' ∧ ch ≠ Char.ofNat 10)
    (hpath : ∀ i ∈ lib, Char.ofNat 10 ∉ i.path.toList) :
    exportLines lib = (storedPairs lib).map (fun pr => pr.1 ++ " *" ++ pr.2)
    ∧ parseExport (exportOutput lib) = storedPairs lib := by
  have h1 : ∀ l : List Item,
      exportLines l = (storedPairs l).map fun pr => pr.1 ++ " *" ++ pr.2 := by
    intro l
    induction l with
    | nil => rfl
    | cons i rest ih =>
        unfold exportLines storedPairs
        rw [List.filterMap_cons, List.filterMap_cons]
        by_cases hi : (i.checksum.getD "" != "") = true
        · rw [if_pos hi, if_pos hi, List.map_cons]
          unfold exportLines storedPairs at ih
          rw [ih]
        · rw [if_neg hi, if_neg hi]
          exact ih
  refine ⟨h1 lib, ?_⟩
  have h2 : exportOutput lib
      = ((storedPairs lib).map fun pr =>
          (pr.1 ++ " *" ++ pr.2).toList ++ [Char.ofNat 10]).flatten := by
    unfold exportOutput
    rw [h1 lib]
    induction storedPairs lib with
    | nil => rfl
    | cons pr rest ih =>
        rw [List.map_cons, List.map_cons, List.flatMap_cons, List.flatten_cons,
          ih]
  rw [h2]
  refine parseExport_lines (storedPairs lib) ?_
  intro pr hpr
  obtain ⟨i, hi, hfi⟩ := List.mem_filterMap.mp hpr
  by_cases htr : (i.checksum.getD "" != "") = true
  · rw [if_pos htr] at hfi
    obtain rfl := Option.some.inj hfi
    exact ⟨hck i hi, hpath i hi⟩
  · rw [if_neg htr] at hfi
    exact absurd hfi (by simp)

/-- Witness for C8: a two-item library, one item fingerprinted with a real
digest, one without a checksum. -/
theorem C8_witness :
    exportLines [itemA, itemNoCk]
        = (storedPairs [itemA, itemNoCk]).map (fun pr => pr.1 ++ " *" ++ pr.2)
    ∧ parseExport (exportOutput [itemA, itemNoCk])
        = storedPairs [itemA, itemNoCk] :=
  C8_export_roundtrip [itemA, itemNoCk] (by decide) (by decide)

end BeetsCheck
